import Mathlib

/-!
Verification of the hddmond-rs device-scanner core.

The development shallowly embeds the two event generators of the
repository:

- the socket-backed generator (src/src/scanners/udev_scanner.rs,
  UdevMonitorStream::poll_next), modelled as a pure function of the
  timer state and the raw notification drained from the channel;

- the diff-based generator (src/src/scanners/smartctl_scanner.rs,
  SmartCtlMonitorStream::poll_next and _upsert_smartctl_exec_future),
  modelled as a step function on an explicit stream state, with an
  environment record supplying what the sleep future and the offloaded
  execution do at each poll.

Machine-level details are modelled as follows: the HashSet of known
device names is a duplicate-free list (an arbitrary but fixed iteration
order); the tokio JoinHandle of the offloaded execution either is still
running or has completed, and polling a handle whose output was already
consumed panics (JoinHandle polled after completion), modelled by a
dedicated panicked outcome of the poll step; a join failure (panic or
abort of the blocking task) can only happen before the closure mutates
the shared set, since the only panic site in the closure precedes the
mutation.
-/

namespace Hddmond

/-- Event vocabulary from src/src/scanners/scanner.rs (ScanEventType). -/
inductive ScanEventType where
  | DeviceFound (id : String)
  | DeviceLost (id : String)
  | Unknown (id : String)
deriving DecidableEq, Repr

/-- The device identifier carried by an event. -/
def ScanEventType.eventId : ScanEventType → String
  | .DeviceFound id => id
  | .DeviceLost id => id
  | .Unknown id => id

/-! ## Socket-backed generator (udev_scanner.rs) -/

/-- A raw udev notification as the stream observes it: the sysname
resolved to a string (none when to_str fails), the action string
(none when the action is absent or to_str fails), and the devtype
string (none when absent or to_str fails). -/
structure UdevEvent where
  sysname : Option String
  action : Option String
  devtype : Option String
deriving DecidableEq, Repr

/-- Outcome of one poll of the udev stream: an item, or pending.
The udev stream never returns end-of-stream. -/
inductive UdevPoll where
  | ready (e : ScanEventType)
  | pending
deriving DecidableEq, Repr

/-- UdevMonitorStream::poll_next (udev_scanner.rs lines 33-115).
Arguments: whether the interval tick has elapsed, and the notification
the socket iterator returns (none when the channel is empty).
Result: the poll outcome, paired with whether wake_by_ref was called
on the waker (the self-wake at line 112 is skipped by the two early
returns at lines 81 and 86). -/
def udevPollNext (intervalElapsed : Bool) (event : Option UdevEvent) :
    UdevPoll × Bool :=
  if !intervalElapsed then
    (UdevPoll.pending, false)
  else
    match event with
    | none => (UdevPoll.pending, true)
    | some ev =>
      match ev.devtype with
      | none => (UdevPoll.pending, false)
      | some dtype =>
        if dtype ≠ "disk" then
          (UdevPoll.pending, false)
        else
          match ev.sysname with
          | some device_name =>
            match ev.action with
            | some a =>
              if a = "add" then
                (UdevPoll.ready (ScanEventType.DeviceFound device_name), true)
              else if a = "remove" then
                (UdevPoll.ready (ScanEventType.DeviceLost device_name), true)
              else if a = "unknown" then
                (UdevPoll.ready (ScanEventType.Unknown device_name), true)
              else
                (UdevPoll.pending, true)
            | none => (UdevPoll.pending, true)
          | none => (UdevPoll.pending, true)

/-! ## Diff-based generator (smartctl_scanner.rs) -/

/-- Result record of the offloaded probe-and-diff closure
(smartctl_scanner.rs, SmartCtlDeviceListDiffResult). -/
structure SmartCtlDeviceListDiffResult where
  added : List String
  removed : List String
deriving DecidableEq, Repr

/-- HashSet::extend on the duplicate-free-list model of the set:
insert each name, skipping ones already present. -/
def hashSetExtend (current : List String) (names : List String) : List String :=
  names.foldl (fun acc d => if acc.contains d then acc else acc ++ [d]) current

/-- Removal of each listed name from the set (the remove loop at
smartctl_scanner.rs lines 135-137). -/
def hashSetRemoveAll (current : List String) (names : List String) : List String :=
  names.foldl (fun acc d => acc.erase d) current

/-- The spawn_blocking closure of _upsert_smartctl_exec_future
(smartctl_scanner.rs lines 111-145). Arguments: the probe outcome
(none when smartctl scan failed, mapped to the empty list by
unwrap_or), and the current contents of the shared device-name set.
Returns the diff result and the new contents of the set. -/
def smartctlExecClosure (scanResult : Option (List String))
    (current_dev_names : List String) :
    SmartCtlDeviceListDiffResult × List String :=
  let device_names := scanResult.getD []
  let new_device_names :=
    device_names.filter (fun d => !current_dev_names.contains d)
  let missing_device_names :=
    current_dev_names.filter (fun d => !device_names.contains d)
  let current1 := hashSetExtend current_dev_names new_device_names
  let current2 := hashSetRemoveAll current1 missing_device_names
  ({ added := new_device_names, removed := missing_device_names }, current2)

/-- The batch of events the poll loop enqueues from one diff result
(smartctl_scanner.rs lines 210-217): one DeviceFound per added entry,
then one DeviceLost per removed entry. -/
def batchEvents (r : SmartCtlDeviceListDiffResult) : List ScanEventType :=
  r.added.map ScanEventType.DeviceFound ++
    r.removed.map ScanEventType.DeviceLost

/-- State of the in-flight-execution slot: the offloaded execution is
still running, or it has completed with a join failure and its
consumed handle remains in the slot (the failure branch of poll_next
neither clears the slot nor resets the sleep). Polling that consumed
handle again panics. A successfully completed execution is never left
in the slot: the success branch clears it immediately. -/
inductive ExecFut where
  | running
  | doneErr
deriving DecidableEq, Repr

/-- State of SmartCtlMonitorStream between polls. sleepElapsed records
whether the sleep future has already completed (a completed tokio
Sleep stays ready until reset). -/
structure SmartCtlStreamState where
  current_dev_names : List String
  smartctl_exec_fut : Option ExecFut
  event_queue : List ScanEventType
  sleepElapsed : Bool
deriving DecidableEq, Repr

/-- What the environment does during one poll: whether a pending sleep
completes at this poll, and what polling a running offloaded execution
yields: none when it is still pending, some (error) when the join
fails (the blocking task panicked or was aborted before the closure
ran, so the shared set is untouched), some (ok scanResult) when the
closure ran with the given probe outcome. -/
structure PollEnv where
  sleepFires : Bool
  execFinishes : Option (Except Unit (Option (List String)))

/-- SmartCtlMonitorStream::_upsert_smartctl_exec_future
(smartctl_scanner.rs lines 96-150) acting on the slot: when the slot
already holds an execution it is returned unchanged, otherwise a new
execution is spawned into it. Both paths return Ok. -/
def _upsert_smartctl_exec_future (slot : Option ExecFut) :
    Except Unit (Option ExecFut) :=
  match slot with
  | some f => Except.ok (some f)
  | none => Except.ok (some ExecFut.running)

/-- Outcome of one poll call on the smartctl stream: Ready (some
event), Ready none for end of stream, Pending, or panicked when the
call does not return because it re-polled a consumed join handle
(tokio panics with: JoinHandle polled after completion). -/
inductive StreamPoll where
  | ready (item : Option ScanEventType)
  | pending
  | panicked
deriving DecidableEq, Repr

/-- One poll step: the outcome, whether wake_by_ref was invoked, and
the successor state. -/
structure PollStep where
  outcome : StreamPoll
  woke : Bool
  state : SmartCtlStreamState
deriving DecidableEq, Repr

/-- SmartCtlMonitorStream::poll_next (smartctl_scanner.rs lines
156-228) as a step function. Branches in source order: pop a queued
event; poll the sleep; upsert the execution slot (ending the stream
if that errored); reset the sleep and report pending if the slot is
still empty; poll the in-flight execution (this poll_unpin call at
line 192 PANICS when the slot holds the consumed handle left behind
by an earlier failure, since tokio forbids polling a JoinHandle after
its completion was taken); on join failure end the stream, leaving
the consumed handle in the slot; on success reset the sleep, clear
the slot, enqueue the batch and deliver its first event (or report
pending when the diff was empty). -/
def smartctlPollNext (env : PollEnv) (s : SmartCtlStreamState) : PollStep :=
  match s.event_queue with
  | e :: rest =>
    { outcome := .ready (some e), woke := true,
      state := { s with event_queue := rest } }
  | [] =>
    if !(s.sleepElapsed || env.sleepFires) then
      { outcome := .pending, woke := false, state := s }
    else
      match _upsert_smartctl_exec_future s.smartctl_exec_fut with
      | .error _ =>
        { outcome := .ready none, woke := false,
          state := { s with sleepElapsed := true } }
      | .ok none =>
        { outcome := .pending, woke := true,
          state := { s with smartctl_exec_fut := none,
                            sleepElapsed := false } }
      | .ok (some ExecFut.doneErr) =>
        { outcome := .panicked, woke := false,
          state := { s with smartctl_exec_fut := some ExecFut.doneErr,
                            sleepElapsed := true } }
      | .ok (some ExecFut.running) =>
        match env.execFinishes with
        | none =>
          { outcome := .pending, woke := false,
            state := { s with smartctl_exec_fut := some ExecFut.running,
                              sleepElapsed := true } }
        | some (.error _) =>
          { outcome := .ready none, woke := false,
            state := { s with smartctl_exec_fut := some ExecFut.doneErr,
                              sleepElapsed := true } }
        | some (.ok scanResult) =>
          let rc := smartctlExecClosure scanResult s.current_dev_names
          match batchEvents rc.1 with
          | e :: rest =>
            { outcome := .ready (some e), woke := true,
              state := { s with current_dev_names := rc.2,
                                smartctl_exec_fut := none,
                                event_queue := rest,
                                sleepElapsed := false } }
          | [] =>
            { outcome := .pending, woke := true,
              state := { s with current_dev_names := rc.2,
                                smartctl_exec_fut := none,
                                event_queue := [],
                                sleepElapsed := false } }

/-- Iterated polling: the sequence of outcomes produced from a state
by a sequence of environments. -/
def pollTrace (s : SmartCtlStreamState) : List PollEnv → List StreamPoll
  | [] => []
  | env :: envs =>
    let step := smartctlPollNext env s
    step.outcome :: pollTrace step.state envs

/-- The events one poll step hands to the consumer and leaves queued:
the delivered item (when the outcome is Ready some) followed by the
successor state's queue. Used to compare a cycle against its batch. -/
def deliveredThenQueued (step : PollStep) : List ScanEventType :=
  (match step.outcome with
   | StreamPoll.ready (some e) => [e]
   | _ => []) ++ step.state.event_queue

/-! ## Helper lemmas about the set model -/

theorem contains_iff_mem (l : List String) (a : String) :
    l.contains a = true ↔ a ∈ l := by
  simp

theorem hashSetExtend_nil (current : List String) :
    hashSetExtend current [] = current := rfl

theorem hashSetExtend_cons (current : List String) (n : String)
    (t : List String) :
    hashSetExtend current (n :: t) =
      hashSetExtend (if current.contains n then current else current ++ [n]) t :=
  rfl

theorem mem_hashSetExtend (current names : List String) (d : String) :
    d ∈ hashSetExtend current names ↔ d ∈ current ∨ d ∈ names := by
  induction names generalizing current with
  | nil => simp [hashSetExtend_nil]
  | cons n t ih =>
    rw [hashSetExtend_cons]
    by_cases h : current.contains n = true
    · rw [if_pos h, ih]
      rw [contains_iff_mem] at h
      simp only [List.mem_cons]
      constructor
      · rintro (hc | ht)
        · exact Or.inl hc
        · exact Or.inr (Or.inr ht)
      · rintro (hc | rfl | ht)
        · exact Or.inl hc
        · exact Or.inl h
        · exact Or.inr ht
    · rw [if_neg h, ih]
      simp only [List.mem_append, List.mem_singleton, List.mem_cons]
      tauto

theorem nodup_hashSetExtend (current names : List String)
    (h : current.Nodup) : (hashSetExtend current names).Nodup := by
  induction names generalizing current with
  | nil => exact h
  | cons n t ih =>
    rw [hashSetExtend_cons]
    by_cases hc : current.contains n = true
    · rw [if_pos hc]; exact ih current h
    · rw [if_neg hc]
      apply ih
      rw [List.nodup_append]
      refine ⟨h, List.nodup_singleton n, ?_⟩
      intro a ha hb
      rw [List.mem_singleton] at hb
      subst hb
      exact hc (by rw [contains_iff_mem]; exact ha)

theorem hashSetRemoveAll_nil (current : List String) :
    hashSetRemoveAll current [] = current := rfl

theorem hashSetRemoveAll_cons (current : List String) (n : String)
    (t : List String) :
    hashSetRemoveAll current (n :: t) = hashSetRemoveAll (current.erase n) t :=
  rfl

theorem mem_hashSetRemoveAll (current names : List String) (d : String)
    (h : current.Nodup) :
    d ∈ hashSetRemoveAll current names ↔ d ∈ current ∧ d ∉ names := by
  induction names generalizing current with
  | nil => simp [hashSetRemoveAll_nil]
  | cons n t ih =>
    rw [hashSetRemoveAll_cons, ih (current.erase n) (h.erase n)]
    rw [h.mem_erase_iff]
    simp only [List.mem_cons]
    tauto

/-- Membership in the added list computed by the closure. -/
theorem mem_closure_added (scanResult : Option (List String))
    (current : List String) (d : String) :
    d ∈ (smartctlExecClosure scanResult current).1.added ↔
      d ∈ scanResult.getD [] ∧ d ∉ current := by
  simp [smartctlExecClosure, List.mem_filter]

/-- Membership in the removed list computed by the closure. -/
theorem mem_closure_removed (scanResult : Option (List String))
    (current : List String) (d : String) :
    d ∈ (smartctlExecClosure scanResult current).1.removed ↔
      d ∈ current ∧ d ∉ scanResult.getD [] := by
  simp [smartctlExecClosure, List.mem_filter]

/-- After the closure runs, the set holds exactly the members of the
probe list (for a duplicate-free prior set). -/
theorem mem_closure_newSet (scanResult : Option (List String))
    (current : List String) (d : String) (h : current.Nodup) :
    d ∈ (smartctlExecClosure scanResult current).2 ↔
      d ∈ scanResult.getD [] := by
  have hnodup : (hashSetExtend current
      ((scanResult.getD []).filter (fun d => !current.contains d))).Nodup :=
    nodup_hashSetExtend _ _ h
  simp only [smartctlExecClosure]
  rw [mem_hashSetRemoveAll _ _ _ hnodup, mem_hashSetExtend]
  simp only [List.mem_filter]
  by_cases hd : d ∈ scanResult.getD [] <;> by_cases hc : d ∈ current <;>
    simp [hd, hc]

/-! ## Claims about the socket-backed generator -/

/-- C3: for every raw notification read by the socket-backed generator,
a device subtype other than disk yields no event regardless of action;
otherwise, when the identifier and action resolve, action add yields
DeviceFound, remove yields DeviceLost, and the remaining recognized
action string (unknown) yields Unknown; a notification whose identifier
or action does not resolve yields no event. -/
theorem C3_udev_event_classification :
    (∀ ev : UdevEvent, ev.devtype ≠ some "disk" →
        (udevPollNext true (some ev)).1 = UdevPoll.pending) ∧
    (∀ name : String,
        (udevPollNext true
            (some ⟨some name, some "add", some "disk"⟩)).1 =
          UdevPoll.ready (ScanEventType.DeviceFound name)) ∧
    (∀ name : String,
        (udevPollNext true
            (some ⟨some name, some "remove", some "disk"⟩)).1 =
          UdevPoll.ready (ScanEventType.DeviceLost name)) ∧
    (∀ name : String,
        (udevPollNext true
            (some ⟨some name, some "unknown", some "disk"⟩)).1 =
          UdevPoll.ready (ScanEventType.Unknown name)) ∧
    (∀ ev : UdevEvent, ev.sysname = none →
        (udevPollNext true (some ev)).1 = UdevPoll.pending) ∧
    (∀ ev : UdevEvent, ev.action = none →
        (udevPollNext true (some ev)).1 = UdevPoll.pending) := by
  refine ⟨?_, fun name => rfl, fun name => rfl, fun name => rfl, ?_, ?_⟩
  · intro ev h
    obtain ⟨sys, act, dt⟩ := ev
    cases dt with
    | none => rfl
    | some dtype =>
      have hne : dtype ≠ "disk" := fun hd => h (by rw [hd])
      simp [udevPollNext, hne]
  · intro ev h
    obtain ⟨sys, act, dt⟩ := ev
    simp only at h
    subst h
    cases dt with
    | none => rfl
    | some dtype =>
      by_cases hd : dtype = "disk"
      · subst hd; rfl
      · simp [udevPollNext, hd]
  · intro ev h
    obtain ⟨sys, act, dt⟩ := ev
    simp only at h
    subst h
    cases dt with
    | none => rfl
    | some dtype =>
      by_cases hd : dtype = "disk"
      · subst hd
        cases sys with
        | none => rfl
        | some name => rfl
      · simp [udevPollNext, hd]

/-- C3 witness: the concrete socket scenario of the spec, action add
with identifier sdc and subtype disk yields DeviceFound sdc. -/
theorem C3_udev_event_classification_witness :
    (udevPollNext true (some ⟨some "sdc", some "add", some "disk"⟩)).1 =
      UdevPoll.ready (ScanEventType.DeviceFound "sdc") :=
  C3_udev_event_classification.2.1 "sdc"

/-- C8 counterexample: with the timer elapsed and a notification whose
device subtype is filtered out (partition), poll_next returns Pending
through the early return at udev_scanner.rs line 86, which skips the
wake_by_ref call at line 112: not-yet-ready is reported WITHOUT a
self-wake, contrary to the claim. -/
theorem C8_counterexample :
    udevPollNext true (some ⟨some "sdc", some "add", some "partition"⟩) =
      (UdevPoll.pending, false) := by
  rfl

/-- C8 amended: with the timer elapsed, a drain attempt that yields no
event reports not-yet-ready with a self-wake when the channel is empty
or the identifier or action fails to resolve or the action is
unrecognized, but WITHOUT a self-wake when the device subtype is
missing or filtered out (the two early returns skip the wake call). -/
theorem C8_drain_self_wake :
    (udevPollNext true none = (UdevPoll.pending, true)) ∧
    (∀ ev : UdevEvent, ev.devtype = some "disk" → ev.sysname = none →
        udevPollNext true (some ev) = (UdevPoll.pending, true)) ∧
    (∀ (ev : UdevEvent) (name : String), ev.devtype = some "disk" →
        ev.sysname = some name → ev.action = none →
        udevPollNext true (some ev) = (UdevPoll.pending, true)) ∧
    (∀ (ev : UdevEvent) (name a : String), ev.devtype = some "disk" →
        ev.sysname = some name → ev.action = some a →
        a ≠ "add" → a ≠ "remove" → a ≠ "unknown" →
        udevPollNext true (some ev) = (UdevPoll.pending, true)) ∧
    (∀ ev : UdevEvent, ev.devtype = none →
        udevPollNext true (some ev) = (UdevPoll.pending, false)) ∧
    (∀ (ev : UdevEvent) (dtype : String), ev.devtype = some dtype →
        dtype ≠ "disk" →
        udevPollNext true (some ev) = (UdevPoll.pending, false)) := by
  refine ⟨rfl, ?_, ?_, ?_, ?_, ?_⟩
  · intro ev hdt hs
    obtain ⟨sys, act, dt⟩ := ev
    simp only at hdt hs
    subst hdt; subst hs
    rfl
  · intro ev name hdt hs ha
    obtain ⟨sys, act, dt⟩ := ev
    simp only at hdt hs ha
    subst hdt; subst hs; subst ha
    rfl
  · intro ev name a hdt hs ha h1 h2 h3
    obtain ⟨sys, act, dt⟩ := ev
    simp only at hdt hs ha
    subst hdt; subst hs; subst ha
    simp [udevPollNext, h1, h2, h3]
  · intro ev hdt
    obtain ⟨sys, act, dt⟩ := ev
    simp only at hdt
    subst hdt
    rfl
  · intro ev dtype hdt hne
    obtain ⟨sys, act, dt⟩ := ev
    simp only at hdt
    subst hdt
    simp [udevPollNext, hne]

/-- C8 witness: an empty channel after an elapsed timer reports
not-yet-ready with a self-wake, and an unresolvable identifier on a
disk notification does too. -/
theorem C8_drain_self_wake_witness :
    udevPollNext true (some ⟨none, some "add", some "disk"⟩) =
      (UdevPoll.pending, true) :=
  C8_drain_self_wake.2.1 ⟨none, some "add", some "disk"⟩ rfl rfl

/-- C9 counterexample: a notification whose sysname resolves to the
empty string is surfaced as DeviceFound of the empty identifier; the
code never checks identifiers for non-emptiness. -/
theorem C9_counterexample :
    (udevPollNext true (some ⟨some "", some "add", some "disk"⟩)).1 =
      UdevPoll.ready (ScanEventType.DeviceFound "") ∧
    (ScanEventType.DeviceFound "").eventId = "" :=
  ⟨rfl, rfl⟩

/-- C9 amended: every event the socket-backed generator emits carries
exactly the resolved sysname of its notification (with no
non-emptiness check), and a notification whose sysname does not
resolve is dropped; every event of a diff-based batch carries an
identifier drawn from the probe list or from the tracked set. -/
theorem C9_event_id_provenance :
    (∀ (elapsed : Bool) (ev : UdevEvent) (e : ScanEventType) (w : Bool),
        udevPollNext elapsed (some ev) = (UdevPoll.ready e, w) →
        ev.sysname = some e.eventId) ∧
    (∀ (elapsed : Bool) (ev : UdevEvent), ev.sysname = none →
        (udevPollNext elapsed (some ev)).1 = UdevPoll.pending) ∧
    (∀ (scanResult : Option (List String)) (current : List String)
        (e : ScanEventType),
        e ∈ batchEvents (smartctlExecClosure scanResult current).1 →
        e.eventId ∈ scanResult.getD [] ∨ e.eventId ∈ current) := by
  refine ⟨?_, ?_, ?_⟩
  · intro elapsed ev e w h
    cases elapsed with
    | false => simp [udevPollNext] at h
    | true =>
      obtain ⟨sys, act, dt⟩ := ev
      cases dt with
      | none => simp [udevPollNext] at h
      | some dtype =>
        by_cases hd : dtype = "disk"
        · subst hd
          cases sys with
          | none => simp [udevPollNext] at h
          | some name =>
            cases act with
            | none => simp [udevPollNext] at h
            | some a =>
              by_cases h1 : a = "add"
              · subst h1
                simp [udevPollNext] at h
                obtain ⟨he, _⟩ := h
                subst he
                rfl
              · by_cases h2 : a = "remove"
                · subst h2
                  simp [udevPollNext] at h
                  obtain ⟨he, _⟩ := h
                  subst he
                  rfl
                · by_cases h3 : a = "unknown"
                  · subst h3
                    simp [udevPollNext] at h
                    obtain ⟨he, _⟩ := h
                    subst he
                    rfl
                  · simp [udevPollNext, h1, h2, h3] at h
        · simp [udevPollNext, hd] at h
  · intro elapsed ev h
    cases elapsed with
    | false => simp [udevPollNext]
    | true =>
      obtain ⟨sys, act, dt⟩ := ev
      simp only at h
      subst h
      cases dt with
      | none => rfl
      | some dtype =>
        by_cases hd : dtype = "disk"
        · subst hd; rfl
        · simp [udevPollNext, hd]
  · intro scanResult current e he
    simp only [batchEvents, List.mem_append, List.mem_map] at he
    rcases he with ⟨d, hd, rfl⟩ | ⟨d, hd, rfl⟩
    · rw [mem_closure_added] at hd
      exact Or.inl hd.1
    · rw [mem_closure_removed] at hd
      exact Or.inr hd.1

/-- C9 witness: a disk notification whose sysname does not resolve
yields no event. -/
theorem C9_event_id_provenance_witness :
    (udevPollNext true (some ⟨none, some "add", some "disk"⟩)).1 =
      UdevPoll.pending :=
  C9_event_id_provenance.2.1 true ⟨none, some "add", some "disk"⟩ rfl

/-! ## Claims about the diff-based generator -/

/-- C5: at most one offloaded execution is in flight. The upsert
operation returns an occupied slot unchanged (reusing the existing
execution) and spawns only into an empty slot; at the poll level, a
still-running execution keeps its slot across any poll, so no second
execution is ever started beside it. -/
theorem C5_at_most_one_in_flight :
    (∀ f : ExecFut,
        _upsert_smartctl_exec_future (some f) = Except.ok (some f)) ∧
    (_upsert_smartctl_exec_future none = Except.ok (some ExecFut.running)) ∧
    (∀ (env : PollEnv) (s : SmartCtlStreamState),
        s.smartctl_exec_fut = some ExecFut.running →
        env.execFinishes = none →
        (smartctlPollNext env s).state.smartctl_exec_fut =
          some ExecFut.running) := by
  refine ⟨fun f => rfl, rfl, ?_⟩
  intro env s hslot hfin
  obtain ⟨cur, slot, queue, sleep⟩ := s
  simp only at hslot
  subst hslot
  cases queue with
  | cons e rest => rfl
  | nil =>
    cases hsf : (sleep || env.sleepFires) with
    | true =>
      simp [smartctlPollNext, _upsert_smartctl_exec_future, hsf, hfin]
    | false =>
      simp [smartctlPollNext, hsf]

/-- C5 witness: a poll that observes a still-pending execution leaves
the occupied slot exactly as it was. -/
theorem C5_at_most_one_in_flight_witness :
    (smartctlPollNext ⟨true, none⟩
        ⟨["sda"], some ExecFut.running, [], false⟩).state.smartctl_exec_fut =
      some ExecFut.running :=
  C5_at_most_one_in_flight.2.2 ⟨true, none⟩
    ⟨["sda"], some ExecFut.running, [], false⟩ rfl rfl

/-- C10: the upsert operation never returns an error and always leaves
the slot holding an execution, so the poll_next branch that ends the
stream on an upsert error and the branch that resets the sleep because
the slot is still empty after the upsert are both unreachable. -/
theorem C10_upsert_never_fails (slot : Option ExecFut) :
    (∃ f : ExecFut,
        _upsert_smartctl_exec_future slot = Except.ok (some f)) ∧
    (∀ e : Unit, _upsert_smartctl_exec_future slot ≠ Except.error e) ∧
    _upsert_smartctl_exec_future slot ≠ Except.ok none := by
  cases slot with
  | none =>
    refine ⟨⟨ExecFut.running, rfl⟩, ?_, ?_⟩
    · intro e h
      exact Except.noConfusion h
    · intro h
      injection h with h2
      exact Option.noConfusion h2
  | some f =>
    refine ⟨⟨f, rfl⟩, ?_, ?_⟩
    · intro e h
      exact Except.noConfusion h
    · intro h
      injection h with h2
      exact Option.noConfusion h2

/-- C10 witness: upserting into an empty slot yields Ok of an occupied
slot. -/
theorem C10_upsert_never_fails_witness :
    ∃ f : ExecFut,
      _upsert_smartctl_exec_future none = Except.ok (some f) :=
  (C10_upsert_never_fails none).1

/-- C6: a probe cycle with no usable list (scan failure, mapped to the
empty list by unwrap_or, or an empty scan) computes an empty added
list and a removed list equal to the whole tracked set, so the batch
is exactly one DeviceLost per tracked identifier and no DeviceFound. -/
theorem C6_full_loss (scanResult : Option (List String))
    (current : List String)
    (h : scanResult = none ∨ scanResult = some []) :
    (smartctlExecClosure scanResult current).1.added = [] ∧
    (smartctlExecClosure scanResult current).1.removed = current ∧
    batchEvents (smartctlExecClosure scanResult current).1 =
      current.map ScanEventType.DeviceLost := by
  have hd : scanResult.getD [] = [] := by
    rcases h with rfl | rfl <;> rfl
  refine ⟨?_, ?_, ?_⟩ <;>
    simp [smartctlExecClosure, batchEvents, hd]

/-- C6 witness: an empty probe list after tracking sda and sdb yields
exactly DeviceLost sda and DeviceLost sdb. -/
theorem C6_full_loss_witness :
    batchEvents (smartctlExecClosure (some []) ["sda", "sdb"]).1 =
      (["sda", "sdb"]).map ScanEventType.DeviceLost :=
  (C6_full_loss (some []) ["sda", "sdb"] (Or.inr rfl)).2.2

/-- C7: when the probe returns the same identifier list that produced
the tracked set on the previous cycle, the second diff computes an
empty batch (no events) and leaves the tracked set unchanged. -/
theorem C7_idempotent_second_cycle (l current : List String)
    (hc : current.Nodup) :
    batchEvents (smartctlExecClosure (some l)
        ((smartctlExecClosure (some l) current).2)).1 = [] ∧
    (smartctlExecClosure (some l)
        ((smartctlExecClosure (some l) current).2)).2 =
      (smartctlExecClosure (some l) current).2 := by
  have hmem : ∀ d, d ∈ (smartctlExecClosure (some l) current).2 ↔ d ∈ l := by
    intro d
    rw [mem_closure_newSet (some l) current d hc]
    rfl
  have hadd : l.filter
      (fun d => !((smartctlExecClosure (some l) current).2.contains d)) = [] := by
    rw [List.filter_eq_nil_iff]
    intro a ha
    simp [(hmem a).2 ha]
  have hrem : (smartctlExecClosure (some l) current).2.filter
      (fun d => !(l.contains d)) = [] := by
    rw [List.filter_eq_nil_iff]
    intro a ha
    simp [(hmem a).1 ha]
  set c1 := (smartctlExecClosure (some l) current).2 with hc1
  constructor
  · simp only [smartctlExecClosure, Option.getD_some, batchEvents]
    rw [hadd, hrem]
    rfl
  · simp only [smartctlExecClosure, Option.getD_some]
    rw [hadd, hrem]
    rfl

/-- C7 witness: after a cycle that tracked sda from an empty set, a
second identical probe list produces no events. -/
theorem C7_idempotent_second_cycle_witness :
    batchEvents (smartctlExecClosure (some ["sda"])
        ((smartctlExecClosure (some ["sda"]) []).2)).1 = [] :=
  (C7_idempotent_second_cycle ["sda"] [] List.nodup_nil).1

/-- The added list as the closure computes it. -/
theorem closure_added_eq (scanResult : Option (List String))
    (current : List String) :
    (smartctlExecClosure scanResult current).1.added =
      (scanResult.getD []).filter (fun d => !current.contains d) := rfl

/-- The removed list as the closure computes it. -/
theorem closure_removed_eq (scanResult : Option (List String))
    (current : List String) :
    (smartctlExecClosure scanResult current).1.removed =
      current.filter (fun d => !(scanResult.getD []).contains d) := rfl

/-- C2 counterexample: the added loop does not deduplicate the probe
list. A probe list holding sda twice against an empty tracked set
yields an added list with two entries and a batch with two
DeviceFound events for the single identifier sda, refuting both the
duplicates-ignored part and the exactly-one-Found-per-added-identifier
part of the claim. -/
theorem C2_counterexample :
    (smartctlExecClosure (some ["sda", "sda"]) []).1.added =
      ["sda", "sda"] ∧
    (batchEvents (smartctlExecClosure (some ["sda", "sda"]) []).1).count
      (ScanEventType.DeviceFound "sda") = 2 := by
  constructor <;> rfl

/-- C2 amended: for every DUPLICATE-FREE probe list and duplicate-free
prior tracked set, the diff step computes added as the identifiers in
the probe list absent from the set, removed as those in the set absent
from the probe list, updates the set to exactly the probe list
membership, and the batch holds exactly one DeviceFound per added
identifier, exactly one DeviceLost per removed identifier, and no
other events. -/
theorem C2_diff_step (l current : List String) (hl : l.Nodup)
    (hc : current.Nodup) :
    (∀ d, d ∈ (smartctlExecClosure (some l) current).1.added ↔
        d ∈ l ∧ d ∉ current) ∧
    (∀ d, d ∈ (smartctlExecClosure (some l) current).1.removed ↔
        d ∈ current ∧ d ∉ l) ∧
    (∀ d, d ∈ (smartctlExecClosure (some l) current).2 ↔ d ∈ l) ∧
    (∀ d, (batchEvents (smartctlExecClosure (some l) current).1).count
        (ScanEventType.DeviceFound d) =
          if d ∈ l ∧ d ∉ current then 1 else 0) ∧
    (∀ d, (batchEvents (smartctlExecClosure (some l) current).1).count
        (ScanEventType.DeviceLost d) =
          if d ∈ current ∧ d ∉ l then 1 else 0) ∧
    (∀ e ∈ batchEvents (smartctlExecClosure (some l) current).1,
        (∃ d, d ∈ l ∧ d ∉ current ∧ e = ScanEventType.DeviceFound d) ∨
        (∃ d, d ∈ current ∧ d ∉ l ∧ e = ScanEventType.DeviceLost d)) := by
  have hFound_inj : Function.Injective ScanEventType.DeviceFound := by
    intro a b h
    injection h
  have hLost_inj : Function.Injective ScanEventType.DeviceLost := by
    intro a b h
    injection h
  have haddmem : ∀ d, d ∈ (smartctlExecClosure (some l) current).1.added ↔
      d ∈ l ∧ d ∉ current := by
    intro d
    rw [mem_closure_added]
    rfl
  have hremmem : ∀ d, d ∈ (smartctlExecClosure (some l) current).1.removed ↔
      d ∈ current ∧ d ∉ l := by
    intro d
    rw [mem_closure_removed]
    rfl
  have haddnodup : (smartctlExecClosure (some l) current).1.added.Nodup := by
    rw [closure_added_eq]
    exact List.Nodup.filter _ hl
  have hremnodup :
      (smartctlExecClosure (some l) current).1.removed.Nodup := by
    rw [closure_removed_eq]
    exact List.Nodup.filter _ hc
  refine ⟨haddmem, hremmem, ?_, ?_, ?_, ?_⟩
  · intro d
    rw [mem_closure_newSet (some l) current d hc]
    rfl
  · intro d
    rw [batchEvents, List.count_append]
    have h1 : (List.map ScanEventType.DeviceFound
        (smartctlExecClosure (some l) current).1.added).count
          (ScanEventType.DeviceFound d) =
        (smartctlExecClosure (some l) current).1.added.count d :=
      List.count_map_of_injective _ _ hFound_inj _
    have h2 : (List.map ScanEventType.DeviceLost
        (smartctlExecClosure (some l) current).1.removed).count
          (ScanEventType.DeviceFound d) = 0 := by
      apply List.count_eq_zero_of_not_mem
      simp [List.mem_map]
    rw [h1, h2, Nat.add_zero]
    by_cases hd : d ∈ l ∧ d ∉ current
    · rw [if_pos hd]
      exact List.count_eq_one_of_mem haddnodup ((haddmem d).2 hd)
    · rw [if_neg hd]
      exact List.count_eq_zero_of_not_mem (fun hmem => hd ((haddmem d).1 hmem))
  · intro d
    rw [batchEvents, List.count_append]
    have h1 : (List.map ScanEventType.DeviceFound
        (smartctlExecClosure (some l) current).1.added).count
          (ScanEventType.DeviceLost d) = 0 := by
      apply List.count_eq_zero_of_not_mem
      simp [List.mem_map]
    have h2 : (List.map ScanEventType.DeviceLost
        (smartctlExecClosure (some l) current).1.removed).count
          (ScanEventType.DeviceLost d) =
        (smartctlExecClosure (some l) current).1.removed.count d :=
      List.count_map_of_injective _ _ hLost_inj _
    rw [h1, h2, Nat.zero_add]
    by_cases hd : d ∈ current ∧ d ∉ l
    · rw [if_pos hd]
      exact List.count_eq_one_of_mem hremnodup ((hremmem d).2 hd)
    · rw [if_neg hd]
      exact List.count_eq_zero_of_not_mem (fun hmem => hd ((hremmem d).1 hmem))
  · intro e he
    simp only [batchEvents, List.mem_append, List.mem_map] at he
    rcases he with ⟨d, hd, rfl⟩ | ⟨d, hd, rfl⟩
    · exact Or.inl ⟨d, ((haddmem d).1 hd).1, ((haddmem d).1 hd).2, rfl⟩
    · exact Or.inr ⟨d, ((hremmem d).1 hd).1, ((hremmem d).1 hd).2, rfl⟩

/-- C2 witness: a duplicate-free probe list sdb against tracked set
sda yields exactly one DeviceFound sdb in the batch. -/
theorem C2_diff_step_witness :
    (batchEvents (smartctlExecClosure (some ["sdb"]) ["sda"]).1).count
        (ScanEventType.DeviceFound "sdb") =
      if "sdb" ∈ ["sdb"] ∧ "sdb" ∉ ["sda"] then 1 else 0 :=
  (C2_diff_step ["sdb"] ["sda"] (by decide) (by decide)).2.2.2.1 "sdb"

/-- C4: within one batch all DeviceFound events precede all DeviceLost
events; a poll that finds the queue non-empty delivers exactly the
front event and leaves the tail, touching nothing else (so batches
drain in FIFO cycle order before any new batch is created); and the
poll that observes a successful completion delivers and queues exactly
that cycle's batch. -/
theorem C4_ordering :
    (∀ (scanResult : Option (List String)) (current : List String),
        ∃ fs ls,
          batchEvents (smartctlExecClosure scanResult current).1 =
            fs ++ ls ∧
          (∀ e ∈ fs, ∃ d, e = ScanEventType.DeviceFound d) ∧
          (∀ e ∈ ls, ∃ d, e = ScanEventType.DeviceLost d)) ∧
    (∀ (env : PollEnv) (s : SmartCtlStreamState) (e : ScanEventType)
        (rest : List ScanEventType), s.event_queue = e :: rest →
        smartctlPollNext env s =
          { outcome := StreamPoll.ready (some e), woke := true,
            state := { s with event_queue := rest } }) ∧
    (∀ (env : PollEnv) (s : SmartCtlStreamState)
        (scanResult : Option (List String)),
        s.event_queue = [] →
        (s.sleepElapsed || env.sleepFires) = true →
        s.smartctl_exec_fut = some ExecFut.running →
        env.execFinishes = some (Except.ok scanResult) →
        deliveredThenQueued (smartctlPollNext env s) =
          batchEvents
            (smartctlExecClosure scanResult s.current_dev_names).1) := by
  refine ⟨?_, ?_, ?_⟩
  · intro scanResult current
    refine ⟨(smartctlExecClosure scanResult current).1.added.map
        ScanEventType.DeviceFound,
      (smartctlExecClosure scanResult current).1.removed.map
        ScanEventType.DeviceLost, rfl, ?_, ?_⟩
    · intro e he
      simp only [List.mem_map] at he
      obtain ⟨d, _, rfl⟩ := he
      exact ⟨d, rfl⟩
    · intro e he
      simp only [List.mem_map] at he
      obtain ⟨d, _, rfl⟩ := he
      exact ⟨d, rfl⟩
  · intro env s e rest hq
    obtain ⟨cur, slot, queue, sleep⟩ := s
    simp only at hq
    subst hq
    rfl
  · intro env s scanResult hq he hslot hexec
    obtain ⟨cur, slot, queue, sleep⟩ := s
    simp only at hq hslot he
    subst hq
    subst hslot
    simp only [smartctlPollNext, _upsert_smartctl_exec_future, hexec, he,
      Bool.not_true, Bool.false_eq_true, if_false]
    rcases hb : batchEvents (smartctlExecClosure scanResult cur).1 with
      _ | ⟨e, rest⟩
    · simp [deliveredThenQueued, hb]
    · simp [deliveredThenQueued, hb]

/-- C4 witness: a non-empty queue delivers exactly its front event and
keeps the tail. -/
theorem C4_ordering_witness :
    smartctlPollNext ⟨false, none⟩
        ⟨[], none, [ScanEventType.DeviceFound "sda"], false⟩ =
      { outcome := StreamPoll.ready (some (ScanEventType.DeviceFound "sda")),
        woke := true,
        state := { current_dev_names := [], smartctl_exec_fut := none,
                   event_queue := [], sleepElapsed := false } } :=
  C4_ordering.2.1 ⟨false, none⟩
    ⟨[], none, [ScanEventType.DeviceFound "sda"], false⟩
    (ScanEventType.DeviceFound "sda") [] rfl

/-- After the failure branch has run, the stream state is stuck: the
queue is empty, the slot still holds the consumed handle, the sleep
was not reset (so it is still elapsed), and every poll re-polls the
consumed handle and panics, leaving the state as it was. -/
theorem pollNext_after_failure (env : PollEnv) (s : SmartCtlStreamState)
    (hq : s.event_queue = [])
    (hslot : s.smartctl_exec_fut = some ExecFut.doneErr)
    (hsleep : s.sleepElapsed = true) :
    smartctlPollNext env s =
      { outcome := StreamPoll.panicked, woke := false, state := s } := by
  obtain ⟨cur, slot, queue, sleep⟩ := s
  simp only at hq hslot hsleep
  subst hq
  subst hslot
  subst hsleep
  simp [smartctlPollNext, _upsert_smartctl_exec_future]

/-- Iterating from the stuck post-failure state yields only panics,
for any sequence of environments. -/
theorem pollTrace_after_failure (s : SmartCtlStreamState)
    (hq : s.event_queue = [])
    (hslot : s.smartctl_exec_fut = some ExecFut.doneErr)
    (hsleep : s.sleepElapsed = true) (envs : List PollEnv) :
    pollTrace s envs =
      List.replicate envs.length StreamPoll.panicked := by
  induction envs with
  | nil => rfl
  | cons env t ih =>
    have hstep := pollNext_after_failure env s hq hslot hsleep
    simp [pollTrace, hstep, ih, List.replicate_succ]

/-- C1 counterexample: after the poll that observes the failing
execution and returns end-of-stream, the slot keeps the consumed
handle and the sleep stays elapsed, so the very next poll does NOT
yield end-of-stream: it re-polls the consumed join handle and panics.
The claim that every subsequent poll yields end-of-stream is false at
this concrete input. -/
theorem C1_counterexample :
    (smartctlPollNext ⟨false, some (Except.error ())⟩
        ⟨["sda"], some ExecFut.running, [], true⟩).outcome =
      StreamPoll.ready none ∧
    (smartctlPollNext ⟨false, none⟩
        (smartctlPollNext ⟨false, some (Except.error ())⟩
          ⟨["sda"], some ExecFut.running, [], true⟩).state).outcome =
      StreamPoll.panicked ∧
    (smartctlPollNext ⟨false, none⟩
        (smartctlPollNext ⟨false, some (Except.error ())⟩
          ⟨["sda"], some ExecFut.running, [], true⟩).state).outcome ≠
      StreamPoll.ready none := by
  refine ⟨rfl, rfl, ?_⟩
  intro h
  exact StreamPoll.noConfusion h

/-- C1 amended: when a poll of the diff-based generator observes the
offloaded execution completing with a failure, it returns
end-of-stream with the tracked set exactly as it was before the
failing call and with no event left queued, and the generator never
produces another event: under any environments, every subsequent poll
panics on the consumed join handle (rather than yielding end-of-stream
again), so no poll after the failure ever returns an event. -/
theorem C1_probe_failure_fatal (env : PollEnv)
    (s : SmartCtlStreamState)
    (hq : s.event_queue = [])
    (hslot : s.smartctl_exec_fut = some ExecFut.running)
    (helapsed : (s.sleepElapsed || env.sleepFires) = true)
    (hfail : env.execFinishes = some (Except.error ())) :
    (smartctlPollNext env s).outcome = StreamPoll.ready none ∧
    (smartctlPollNext env s).state.current_dev_names =
      s.current_dev_names ∧
    (smartctlPollNext env s).state.event_queue = [] ∧
    (∀ envs, pollTrace (smartctlPollNext env s).state envs =
      List.replicate envs.length StreamPoll.panicked) ∧
    (∀ (envs : List PollEnv) (e : ScanEventType),
      StreamPoll.ready (some e) ∉
        pollTrace (smartctlPollNext env s).state envs) := by
  obtain ⟨cur, slot, queue, sleep⟩ := s
  simp only at hq hslot helapsed
  subst hq
  subst hslot
  have hstep : smartctlPollNext env ⟨cur, some ExecFut.running, [], sleep⟩ =
      { outcome := StreamPoll.ready none, woke := false,
        state := ⟨cur, some ExecFut.doneErr, [], true⟩ } := by
    simp [smartctlPollNext, _upsert_smartctl_exec_future, helapsed, hfail]
  rw [hstep]
  refine ⟨rfl, rfl, rfl, fun envs =>
    pollTrace_after_failure _ rfl rfl rfl envs, ?_⟩
  intro envs e hmem
  rw [pollTrace_after_failure _ rfl rfl rfl envs] at hmem
  exact StreamPoll.noConfusion (List.eq_of_mem_replicate hmem)

/-- C1 witness: a concrete failing completion ends the stream at once
and keeps the tracked set. -/
theorem C1_probe_failure_fatal_witness :
    (smartctlPollNext ⟨false, some (Except.error ())⟩
        ⟨["sda"], some ExecFut.running, [], true⟩).outcome =
      StreamPoll.ready none ∧
    (smartctlPollNext ⟨false, some (Except.error ())⟩
        ⟨["sda"], some ExecFut.running, [], true⟩).state.current_dev_names =
      ["sda"] :=
  ⟨(C1_probe_failure_fatal ⟨false, some (Except.error ())⟩
      ⟨["sda"], some ExecFut.running, [], true⟩ rfl rfl rfl rfl).1,
   (C1_probe_failure_fatal ⟨false, some (Except.error ())⟩
      ⟨["sda"], some ExecFut.running, [], true⟩ rfl rfl rfl rfl).2.1⟩

end Hddmond
